import Mathlib

/-!
Shallow embedding of the AF-backend room/session coordination core
(roomService, the socket submit-vote handler and the rooms HTTP route
handlers), together with theorems settling the specification claims.

Conventions of the embedding:
* Firestore reads are modelled by passing the looked-up document as an
  `Option Room` parameter; a write is the record returned by the function.
* JS objects used as string-keyed maps (`votes`, `answers`) are modelled as
  association lists in key-insertion order, which is the iteration order of
  `Object.keys` for these maps.
* `Math.random()` draws are modelled as parameters: the shuffled prompt
  list of `[...questions].sort(() => 0.5 - Math.random())` is a parameter
  constrained (in theorems) to be a permutation, and the random index of
  `Math.floor(Math.random() * activePlayers.length)` is a `Nat` parameter
  constrained to be in range.
* The two vote representations of the code (plain user-id strings on the
  synchronous path, `{userId, username, votedAt}` records on the live
  path) are captured by making the room generic in the vote-entry type.
* A JS `throw` is `Except.error` carrying the thrown message; a missing
  field (`undefined` / `null`) is `Option.none`; the falsy `room.round`
  default is modelled by `round = 0` standing for the unset field.
-/

/-- Status field of a room document: `pending`, `active`, `completed` or
`terminated`. -/
inductive RoomStatus where
  | pending
  | active
  | completed
  | terminated
deriving Repr, DecidableEq

/-- Player entry embedded in a room document. -/
structure Player where
  userId : String
  username : String
  avatar : String
  isHost : Bool
  isActive : Bool
  joinedAt : String
  leftAt : Option String := none
  rejoinedAt : Option String := none
deriving Repr, DecidableEq, Inhabited

/-- Prompt offered for voting, as stored on the room (`{id, text,
difficulty}`). -/
structure Question where
  id : String
  text : String
  difficulty : String
deriving Repr, DecidableEq

/-- Voter record pushed by the live-channel `submit_vote` handler:
`{userId, username, votedAt}`. -/
structure Voter where
  userId : String
  username : String
  votedAt : String
deriving Repr, DecidableEq

/-- Room document. `V` is the vote-entry type: `String` (bare user ids) on
the synchronous path of the older service, `Voter` records on the live
channel. `round = 0` models the field being unset (JS falsy). -/
structure Room (V : Type) where
  id : String
  code : String
  name : String
  hostId : String
  hostName : String
  gameId : Option String
  gameName : String
  maxPlayers : Nat
  players : List Player
  status : RoomStatus
  currentQuestion : Option Question := none
  questions : List Question
  currentPlayerTurn : Option String
  votes : List (String × List V)
  answers : List (String × String)
  round : Nat
  createdAt : String
  updatedAt : String
deriving Repr, DecidableEq

/-- Input `playerData` for join operations. -/
structure PlayerData where
  userId : String
  username : String
  avatar : String
deriving Repr, DecidableEq

/-- Active players of a player list: the code filters with
`p.isActive !== false`. -/
def activeOf (ps : List Player) : List Player :=
  ps.filter (·.isActive)

/-- User ids appearing in a player list. -/
def userIds (ps : List Player) : List String :=
  ps.map (·.userId)

/-- Assignment `m[k] = v` on a JS object used as a map: an existing key is
updated in place, a fresh key is appended (insertion order). -/
def setKey {α : Type} (m : List (String × α)) (k : String) (v : α) :
    List (String × α) :=
  if m.any (·.1 == k) then
    m.map (fun p => if p.1 == k then (k, v) else p)
  else
    m ++ [(k, v)]

/-- Lookup `m[k]` with `[]` for a missing key, as the code's
`votes[questionId] || []` initialisation produces. -/
def getArr {α : Type} (m : List (String × List α)) (k : String) : List α :=
  ((m.find? (·.1 == k)).map (·.2)).getD []

/-! ### Room creation (`generateRoomCode` / `roomCodeExists` / `createRoom`) -/

/-- Character set of `generateRoomCode`. -/
def codeAlphabet : String := "ABCDEFGHIJKLMNOPQRSTUVWXYZ0123456789"

/-- Translation of `roomCodeExists(code)`: queries rooms `where code ==
code` and `where status == 'active'` and reports whether the result is
non-empty. Note: the query filters on `'active'` only, not on
`['pending','active']`. -/
def roomCodeExists {V : Type} (store : List (Room V)) (code : String) : Bool :=
  store.any (fun r => r.code == code && r.status == RoomStatus.active)

/-- Retry loop of `createRoom`: `while (await roomCodeExists(code)) code =
generateRoomCode()`. The stream of generated codes is the list `codes`;
`none` models the loop exhausting the modelled stream. -/
def pickRoomCode {V : Type} (store : List (Room V)) :
    List String → Option String
  | [] => none
  | c :: cs => if roomCodeExists store c then pickRoomCode store cs else some c

/-- Input data for `createRoom`. `maxPlayers = 0` models a missing/NaN
value, defaulted to 10 by `parseInt(roomData.maxPlayers) || 10`. -/
structure RoomData where
  name : String
  hostId : String
  hostName : String
  gameId : Option String
  gameName : String
  maxPlayers : Nat
  avatar : String
deriving Repr, DecidableEq

/-- Translation of `createRoom(roomData)`: picks the first generated code
for which `roomCodeExists` is false, then builds a `pending` room seeded
with the host as sole active `isHost` player. -/
def createRoom {V : Type} (store : List (Room V)) (codes : List String)
    (rd : RoomData) (uuid now : String) : Option (Room V) :=
  (pickRoomCode store codes).map fun code =>
    { id := uuid
      code := code
      name := rd.name
      hostId := rd.hostId
      hostName := rd.hostName
      gameId := rd.gameId
      gameName := rd.gameName
      maxPlayers := if rd.maxPlayers == 0 then 10 else rd.maxPlayers
      players := [{ userId := rd.hostId, username := rd.hostName,
                    avatar := rd.avatar, isHost := true, isActive := true,
                    joinedAt := now }]
      status := RoomStatus.pending
      currentQuestion := none
      questions := []
      currentPlayerTurn := none
      votes := []
      answers := []
      round := 0
      createdAt := now
      updatedAt := now }

/-! ### Synchronous vote path (`submitVote` service + HTTP route handler) -/

/-- Translation of the older service's `submitVote(roomId, userId,
questionId)`: initialises `votes[questionId]` to `[]` if missing, rejects a
duplicate vote by the same user for the same question, otherwise pushes the
bare user id. No check against `currentPlayerTurn` and no removal of the
user's votes on other questions happens here. -/
def submitVote (found : Option (Room String)) (userId questionId now : String) :
    Except String (Room String) :=
  match found with
  | none => Except.error "Room not found"
  | some room =>
    let arr := getArr room.votes questionId
    if arr.contains userId then
      Except.error "You have already voted for this question"
    else
      Except.ok { room with
        votes := setKey room.votes questionId (arr ++ [userId])
        updatedAt := now }

/-- Error responses of the HTTP route handlers. -/
inductive HttpError where
  | notFound (msg : String)
  | forbidden (msg : String)
  | badRequest (msg : String)
deriving Repr, DecidableEq

/-- Translation of the `POST /:roomId/submit-vote` route handler: 404 when
the room is absent, 403 when the caller is not in `players`, 400 when the
caller is the `currentPlayerTurn`, otherwise delegates to the service
`submitVote` (whose thrown errors become 400 responses). -/
def submitVoteRoute (found : Option (Room String))
    (userId questionId now : String) : Except HttpError (Room String) :=
  match found with
  | none => Except.error (HttpError.notFound "Room not found")
  | some room =>
    if !(room.players.any (·.userId == userId)) then
      Except.error (HttpError.forbidden "You are not a player in this room")
    else if room.currentPlayerTurn == some userId then
      Except.error (HttpError.badRequest "Current player cannot vote")
    else
      match submitVote (some room) userId questionId now with
      | Except.ok r => Except.ok r
      | Except.error m => Except.error (HttpError.badRequest m)

/-! ### Live-channel vote path (socket `submit_vote` handler) -/

/-- Payload of the `vote_update` emission computed by the live handler. -/
structure VoteUpdate where
  room : Room Voter
  voteCounts : List (String × Nat)
  votingComplete : Bool
  winningQuestion : Option Question
deriving Repr, DecidableEq

/-- Accumulator step of the winning-question scan: `if (count > maxVotes)
{ maxVotes = count; winningQuestionId = qId; }`. -/
def winStep (acc : Option String × Nat) (p : String × Nat) :
    Option String × Nat :=
  if acc.2 < p.2 then (some p.1, p.2) else acc

/-- Vote rewrite performed by the live `submit_vote` handler: ensure an
entry for `questionId` exists (`votes[questionId] = []` appends a fresh
key), remove every existing vote by this user from every question, then
push the new voter record onto `votes[questionId]`. -/
def liveVotes (votes : List (String × List Voter))
    (userId username questionId now : String) :
    List (String × List Voter) :=
  ((if votes.any (·.1 == questionId) then votes
    else votes ++ [(questionId, [])]).map
      (fun p => (p.1, p.2.filter (fun v => !(v.userId == userId))))).map
    (fun p =>
      if p.1 == questionId then
        (p.1, p.2 ++ [(⟨userId, username, now⟩ : Voter)])
      else p)

/-- Translation of the socket `submit_vote` handler: rejects the
turn-holder, ensures a (possibly empty) entry for `questionId`, removes any
existing vote by this user from every question, pushes the new voter
record, then computes vote counts, the completion flag (total votes vs.
players other than the turn-holder) and, on completion, the winning
question by a strict-greater maximum scan over the counts. -/
def submitVoteLive (found : Option (Room Voter))
    (userId username questionId now : String) : Except String VoteUpdate :=
  match found with
  | none => Except.error "Room not found"
  | some room =>
    if room.currentPlayerTurn == some userId then
      Except.error "You cannot vote - it is your turn to answer"
    else
      let votes3 := liveVotes room.votes userId username questionId now
      let room' := { room with votes := votes3, updatedAt := now }
      let voteCounts := votes3.map fun p => (p.1, p.2.length)
      let votingPlayers := room'.players.filter
        (fun p => !(some p.userId == room'.currentPlayerTurn))
      let totalVotes : Nat := (votes3.map (fun p => p.2.length)).sum
      let votingComplete : Bool := votingPlayers.length ≤ totalVotes
      let winningQuestion :=
        if votingComplete && !voteCounts.isEmpty then
          match (voteCounts.foldl winStep (none, 0)).1 with
          | some qid =>
            if qid == "" then none else room'.questions.find? (·.id == qid)
          | none => none
        else none
      Except.ok { room := room', voteCounts := voteCounts,
                  votingComplete := votingComplete,
                  winningQuestion := winningQuestion }

/-! ### Room lookup validation and membership (`validateRoomCode`,
`joinRoom`, `leaveRoom`) -/

/-- Map of `leaveRoom` marking the leaver inactive: `{...p, isActive:
false, leftAt: now}` on matching entries. -/
def markLeft (ps : List Player) (userId now : String) : List Player :=
  ps.map fun p =>
    if p.userId == userId then
      { p with isActive := false, leftAt := some now }
    else p

/-- Map of `leaveRoom` moving the `isHost` flag from the leaver to the new
host. -/
def assignHostFlags (ps : List Player) (newHostId leaverId : String) :
    List Player :=
  ps.map fun p =>
    if p.userId == newHostId then { p with isHost := true }
    else if p.userId == leaverId then { p with isHost := false }
    else p

/-- Map of `joinRoom` reactivating an inactive entry in place:
`{...p, isActive: true, rejoinedAt: now, leftAt: null}`. -/
def reactivate (ps : List Player) (userId now : String) : List Player :=
  ps.map fun p =>
    if p.userId == userId then
      { p with isActive := true, rejoinedAt := some now, leftAt := none }
    else p

/-- Result shape of `validateRoomCode`. -/
structure ValidationResult (V : Type) where
  valid : Bool
  message : Option String
  room : Option (Room V)
deriving Repr, DecidableEq

/-- Translation of `validateRoomCode(code)` applied to the result of the
`getRoomByCode` lookup: not-found, non-joinable status, then a fullness
check against the TOTAL length of `players` (inactive entries included). -/
def validateRoomCode {V : Type} (found : Option (Room V)) :
    ValidationResult V :=
  match found with
  | none => { valid := false, message := some "Room not found", room := none }
  | some room =>
    if !(room.status == RoomStatus.pending || room.status == RoomStatus.active)
    then
      { valid := false, message := some "Room is not available", room := none }
    else if room.maxPlayers ≤ room.players.length then
      { valid := false, message := some "Room is full", room := none }
    else
      { valid := true, message := none, room := some room }

/-- Result of `joinRoom`: the room plus the derived `shouldAutoStart`
field. `none` models the field being absent from the returned object, as
on the two early-return paths. -/
structure JoinResult (V : Type) where
  room : Room V
  shouldAutoStart : Option Bool
deriving Repr, DecidableEq

/-- Translation of `joinRoom(code, playerData)` applied to the result of
the `getRoomByCode` lookup. Capacity is checked against the ACTIVE player
count; an already-active member is returned unchanged; an inactive member
is reactivated in place (`rejoinedAt` stamped, `leftAt` cleared); otherwise
a new active non-host entry is appended and `shouldAutoStart` is derived
from the updated room. -/
def joinRoom {V : Type} (found : Option (Room V)) (pd : PlayerData)
    (now : String) : Except String (JoinResult V) :=
  match found with
  | none => Except.error "Room not found"
  | some room =>
    if room.maxPlayers ≤ (activeOf room.players).length then
      Except.error "Room is full"
    else
      match room.players.find? (·.userId == pd.userId) with
      | some existingPlayer =>
        if existingPlayer.isActive then
          Except.ok { room := room, shouldAutoStart := none }
        else
          let players := reactivate room.players pd.userId now
          Except.ok { room := { room with players := players,
                                          updatedAt := now },
                      shouldAutoStart := none }
      | none =>
        let players := room.players ++
          [{ userId := pd.userId, username := pd.username,
             avatar := pd.avatar, isHost := false, isActive := true,
             joinedAt := now }]
        let updated := { room with players := players, updatedAt := now }
        let activePlayersCount := (activeOf updated.players).length
        let isFull : Bool := updated.maxPlayers ≤ activePlayersCount
        let isPending : Bool := updated.status == RoomStatus.pending
        Except.ok { room := updated, shouldAutoStart := some (isFull && isPending) }

/-- Translation of `leaveRoom(roomId, userId)` applied to the result of
the `getRoomById` lookup: marks matching entries inactive with `leftAt`
stamped, reassigns the host among the remaining active players when the
host left, terminates the room when no active player remains. Entries are
only mapped over, never filtered out. -/
def leaveRoom {V : Type} (found : Option (Room V)) (userId now : String) :
    Except String (Room V) :=
  match found with
  | none => Except.error "Room not found"
  | some room =>
    let players1 := markLeft room.players userId now
    let act := activeOf players1
    let room1 := { room with players := players1, updatedAt := now }
    let room2 :=
      if room.hostId == userId && 0 < act.length then
        match (act.find? (fun p => !(p.userId == userId))).orElse
              (fun _ => act.head?) with
        | some newHost =>
          { room1 with
            hostId := newHost.userId
            players := assignHostFlags players1 newHost.userId userId }
        | none => room1
      else room1
    let room3 :=
      if act.length == 0 then { room2 with status := RoomStatus.terminated }
      else room2
    Except.ok room3

/-! ### Turn & round engine (`startRoom`, `selectNewQuestions`,
`rotatePlayerTurn`) -/

/-- Prompt as stored in the game catalog: `id` and `difficulty` may be
missing and are defaulted during selection. -/
structure GameQuestion where
  id : Option String
  text : String
  difficulty : Option String
deriving Repr, DecidableEq

/-- Mapping applied to each selected prompt: `{id: q.id || uuidv4(), text:
q.text, difficulty: q.difficulty || 'medium'}`. The `uuid` supply provides
the fresh id for the `i`-th selected prompt when its `id` is missing. -/
def mapQuestion (uuid : Nat → String) (i : Nat) (q : GameQuestion) :
    Question :=
  { id := q.id.getD (uuid i), text := q.text,
    difficulty := q.difficulty.getD "medium" }

/-- Prompt selection shared by `startRoom` and `selectNewQuestions`: when
the room references a game and the catalog lookup returned a prompt list,
take the first 3 of the shuffled list and map them; otherwise no prompts.
`shuffled` is the outcome of `[...game.questions].sort(() => 0.5 -
Math.random())`, passed as a parameter. -/
def selectQuestions (gameId : Option String)
    (game : Option (List GameQuestion)) (shuffled : List GameQuestion)
    (uuid : Nat → String) : List Question :=
  match gameId, game with
  | some _, some _ => (shuffled.take 3).mapIdx (fun i q => mapQuestion uuid i q)
  | _, _ => []

/-- Translation of `startRoom(roomId)` applied to the result of the
`getRoomById` lookup: requires at least 2 active players, selects at most
3 prompts, picks the first player at the random index into the active
players, sets `round = 1`, clears `votes`/`answers` and activates the
room. -/
def startRoom {V : Type} (found : Option (Room V))
    (game : Option (List GameQuestion)) (shuffled : List GameQuestion)
    (uuid : Nat → String) (randomIndex : Nat) (now : String) :
    Except String (Room V) :=
  match found with
  | none => Except.error "Room not found"
  | some room =>
    let act := activeOf room.players
    if act.length < 2 then
      Except.error "Need at least 2 active players to start"
    else
      let questions := selectQuestions room.gameId game shuffled uuid
      let firstPlayer := act.getD randomIndex default
      Except.ok { room with
        status := RoomStatus.active
        questions := questions
        currentPlayerTurn := some firstPlayer.userId
        votes := []
        answers := []
        round := 1
        updatedAt := now }

/-- Result of `rotatePlayerTurn`: the room plus the `gameEnded` field of
the returned object (absent, i.e. falsy, on the non-terminal path). -/
structure RotateResult (V : Type) where
  room : Room V
  gameEnded : Bool
deriving Repr, DecidableEq

/-- Translation of `rotatePlayerTurn(roomId)` applied to the result of the
`getRoomById` lookup: errors on an empty player list; completes the game
when `room.round || 1` is at least 10; otherwise selects new prompts,
advances the turn to the next active player (index 0 when the holder is
last or no longer active), increments the round and clears
`votes`/`answers`. -/
def rotatePlayerTurn {V : Type} (found : Option (Room V))
    (game : Option (List GameQuestion)) (shuffled : List GameQuestion)
    (uuid : Nat → String) (now : String) : Except String (RotateResult V) :=
  match found with
  | none => Except.error "Room not found"
  | some room =>
    if room.players.isEmpty then
      Except.error "No players in room"
    else
      let currentRound := if room.round == 0 then 1 else room.round
      if 10 ≤ currentRound then
        Except.ok { room := { room with status := RoomStatus.completed,
                                        updatedAt := now },
                    gameEnded := true }
      else
        let newQuestions := selectQuestions room.gameId game shuffled uuid
        let act := activeOf room.players
        if act.isEmpty then
          Except.error "No active players in room"
        else
          let nextIndex :=
            match act.findIdx? (fun p => some p.userId == room.currentPlayerTurn) with
            | some currentIndex =>
              if currentIndex < act.length - 1 then currentIndex + 1 else 0
            | none => 0
          let nextPlayer := act.getD nextIndex default
          let nextRound := currentRound + 1
          Except.ok { room := { room with
                        currentPlayerTurn := some nextPlayer.userId
                        questions := newQuestions
                        round := nextRound
                        votes := []
                        answers := []
                        updatedAt := now },
                      gameEnded := false }

/-! ### Operation sequences over one room (for the append-only invariant) -/

/-- Membership operation on a room: a `joinRoom` or `leaveRoom` call. -/
inductive RoomOp where
  | join (pd : PlayerData) (now : String)
  | leave (userId now : String)

/-- Apply one membership operation to a room; a thrown error leaves the
stored room unchanged, matching the code (which throws before writing). -/
def applyOp {V : Type} (room : Room V) : RoomOp → Room V
  | RoomOp.join pd now =>
    match joinRoom (some room) pd now with
    | Except.ok jr => jr.room
    | Except.error _ => room
  | RoomOp.leave userId now =>
    match leaveRoom (some room) userId now with
    | Except.ok r => r
    | Except.error _ => room

/-- Apply a sequence of membership operations in order. -/
def applyOps {V : Type} (room : Room V) (ops : List RoomOp) : Room V :=
  ops.foldl applyOp room

/-! ### Spec-side derived notions used to state the claims -/

/-- Maximum vote count appearing in a count list (0 for the empty list). -/
def maxCount (cs : List (String × Nat)) : Nat :=
  (cs.map (·.2)).foldr max 0

/-- First-encountered entry attaining the maximum vote count; the
specification's tie-break ("first-encountered prompt id in iteration
order"). -/
def firstMaxEntry (cs : List (String × Nat)) : Option (String × Nat) :=
  cs.find? (fun q => maxCount cs ≤ q.2)

/-- Count of active players of a room other than the turn-holder (the
count the specification says gates vote completion). -/
def activeNonTurnCount {V : Type} (room : Room V) : Nat :=
  ((activeOf room.players).filter
    (fun p => !(some p.userId == room.currentPlayerTurn))).length

/-- Count of ALL players of a room other than the turn-holder (the count
the live handler actually uses). -/
def allNonTurnCount {V : Type} (room : Room V) : Nat :=
  (room.players.filter
    (fun p => !(some p.userId == room.currentPlayerTurn))).length

/-- Total number of votes cast across all prompts. -/
def totalVotesOf {α : Type} (votes : List (String × List α)) : Nat :=
  (votes.map (fun p => p.2.length)).sum

/-- Next turn-holder as the specification words it: the active player
following the current holder in join order, wrapping to the first active
player, and restarting at the first active player when the holder is no
longer active. -/
def specNextTurn {V : Type} (room : Room V) : Option String :=
  let act := activeOf room.players
  match act.findIdx? (fun p => some p.userId == room.currentPlayerTurn) with
  | some i =>
    some ((act.getD (if i + 1 < act.length then i + 1 else 0) default).userId)
  | none => some ((act.getD 0 default).userId)

/-- Prompt ids that carry at least one vote by the given user. -/
def promptsVotedBy (votes : List (String × List Voter)) (userId : String) :
    List String :=
  (votes.filter (fun p => p.2.any (·.userId == userId))).map (·.1)

/-! ### Concrete fixtures -/

/-- Player fixture. -/
def mkPlayer (uid : String) (host active : Bool) : Player :=
  { userId := uid, username := uid, avatar := "", isHost := host,
    isActive := active, joinedAt := "t0" }

/-- Room fixture: host `H`, no game, empty vote/answer maps. -/
def baseRoom (V : Type) : Room V :=
  { id := "r1", code := "AAAAAA", name := "room", hostId := "H",
    hostName := "H", gameId := none, gameName := "", maxPlayers := 10,
    players := [mkPlayer "H" true true], status := RoomStatus.pending,
    questions := [], currentPlayerTurn := none, votes := [], answers := [],
    round := 0, createdAt := "t0", updatedAt := "t0" }

/-- Pending room already holding code `AAAAAA` (fixture for the
code-uniqueness claim). -/
def pendingRoomA : Room String := baseRoom String

/-- Fixture for the synchronous vote path: user `u` already voted for
prompt `q1`; `T` holds the turn. -/
def roomTwoPrompts : Room String :=
  { baseRoom String with
    status := RoomStatus.active
    players := [mkPlayer "T" true true, mkPlayer "u" false true,
                mkPlayer "w" false true]
    currentPlayerTurn := some "T"
    votes := [("q1", ["u"])]
    round := 1 }

/-- Fixture for the live vote path: turn-holder `T`, one further active
player `B`, one inactive player `C`. -/
def roomInactiveVoter : Room Voter :=
  { baseRoom Voter with
    status := RoomStatus.active
    players := [mkPlayer "T" true true, mkPlayer "B" false true,
                mkPlayer "C" false false]
    currentPlayerTurn := some "T"
    questions := [⟨"q1", "prompt one", "medium"⟩, ⟨"q2", "prompt two", "medium"⟩]
    round := 1 }

/-- Fixture for the join auto-start flag: pending room of capacity 2 whose
second player `B` has left (inactive entry retained). -/
def roomRejoinPending (V : Type) : Room V :=
  { baseRoom V with
    maxPlayers := 2
    players := [mkPlayer "H" true true,
                { mkPlayer "B" false false with leftAt := some "t0" }] }

/-- Room fixture for the leave claim: host `H` plus one further active
player `P`. -/
def roomHostLeave : Room String :=
  { baseRoom String with
    status := RoomStatus.active
    players := [mkPlayer "H" true true, mkPlayer "P" false true]
    currentPlayerTurn := some "H"
    round := 1 }

/-- Room fixture for the live vote path with no inactive player:
turn-holder `T` and one active voter `B`. -/
def roomLiveVote : Room Voter :=
  { baseRoom Voter with
    status := RoomStatus.active
    players := [mkPlayer "T" true true, mkPlayer "B" false true]
    currentPlayerTurn := some "T"
    questions := [⟨"q1", "prompt one", "medium"⟩,
                  ⟨"q2", "prompt two", "medium"⟩]
    round := 1 }

/-! ### C1 — room-code uniqueness at creation -/

/-- C1: the claim says the `createRoom` generation loop retries until no
`pending`/`active` room holds the generated code. The code's
`roomCodeExists` filters on status `'active'` only, so a code held by a
PENDING room is accepted without retry: with a pending room holding
`AAAAAA` in the store, `createRoom` accepts the first generated code
`AAAAAA` and returns a room whose code collides with that pending room. -/
theorem createRoom_pending_collision :
    ∃ r : Room String,
      createRoom [pendingRoomA] ["AAAAAA"]
        { name := "room2", hostId := "H2", hostName := "H2", gameId := none,
          gameName := "", maxPlayers := 4, avatar := "" } "id2" "t1" = some r ∧
      r.code = pendingRoomA.code ∧
      pendingRoomA.status = RoomStatus.pending := by
  refine ⟨_, rfl, ?_, rfl⟩
  rfl

/-! ### C2 — at most one prompt voted per user -/

/-- C2 counterexample: on the synchronous path, `submitVote` does not
remove the user's prior vote on another prompt; after `u` (who already
voted for `q1`) votes for `q2`, the votes mapping carries votes by `u`
under two distinct prompt ids. -/
theorem submitVote_keeps_vote_on_other_prompt :
    ∃ r : Room String,
      submitVote (some roomTwoPrompts) "u" "q2" "t1" = Except.ok r ∧
      (r.votes.filter (fun p => p.2.contains "u")).map (·.1) = ["q1", "q2"] := by
  exact ⟨_, rfl, rfl⟩

/-! ### C3 — vote-completion count and winning prompt -/

/-- C3 counterexample: the live handler counts ALL players other than the
turn-holder, not the active ones. In a room with turn-holder `T`, active
player `B` and inactive player `C`, the single vote by `B` reaches the
count of active players excluding the turn-holder (1), yet the handler
reports `votingComplete = false` because it compares against 2. -/
theorem votingComplete_counts_inactive_players :
    ∃ u : VoteUpdate,
      submitVoteLive (some roomInactiveVoter) "B" "B" "q1" "t1" =
        Except.ok u ∧
      activeNonTurnCount u.room ≤ totalVotesOf u.room.votes ∧
      u.votingComplete = false := by
  refine ⟨_, rfl, ?_, rfl⟩
  decide

/-! ### C8 — shouldAutoStart flag -/

/-- C8 counterexample: a reactivation join returns through the early
path, which carries NO `shouldAutoStart` field, even when the join brings
the active-player count up to `maxPlayers` with the room still pending.
Player `B` rejoining the pending 2-player room yields a full pending room
whose join result lacks the flag. -/
theorem joinRoom_reactivation_has_no_flag :
    ∃ jr : JoinResult String,
      joinRoom (some (roomRejoinPending String)) ⟨"B", "B", ""⟩ "t1" =
        Except.ok jr ∧
      jr.shouldAutoStart = none ∧
      (activeOf jr.room.players).length = jr.room.maxPlayers ∧
      jr.room.status = RoomStatus.pending := by
  exact ⟨_, rfl, rfl, rfl, rfl⟩

/-- Helper for the amended voting claim: every entry of the rewritten vote
map that still carries a vote by the submitting user is the entry of the
prompt just voted for. -/
theorem liveVotes_mem_key (votes : List (String × List Voter))
    (userId username questionId now : String) :
    ∀ p ∈ liveVotes votes userId username questionId now,
      p.2.any (·.userId == userId) = true → p.1 = questionId := by
  intro p hp hpu
  unfold liveVotes at hp
  simp only [List.mem_map] at hp
  obtain ⟨q, ⟨r, hr, hfr⟩, hgq⟩ := hp
  by_cases hq1 : (q.1 == questionId) = true
  · rw [if_pos hq1] at hgq
    subst hgq
    exact eq_of_beq hq1
  · rw [if_neg hq1] at hgq
    subst hgq
    subst hfr
    exfalso
    simp only [List.any_eq_true, List.mem_filter] at hpu
    obtain ⟨v, ⟨hv1, hv2⟩, hv3⟩ := hpu
    rw [hv3] at hv2
    simp at hv2

/-- C2 (amended): on the live-channel path, `submit_vote` first removes
every prior vote by the user from every prompt and then inserts the new
vote, so afterwards all votes by that user sit under a single prompt id. -/
theorem submitVoteLive_single_prompt_per_user
    (found : Option (Room Voter)) (uid un qid now : String) (u : VoteUpdate)
    (h : submitVoteLive found uid un qid now = Except.ok u) :
    ∀ p ∈ u.room.votes, ∀ q ∈ u.room.votes,
      p.2.any (·.userId == uid) = true → q.2.any (·.userId == uid) = true →
      p.1 = q.1 := by
  match found with
  | none => simp [submitVoteLive] at h
  | some room =>
    rw [submitVoteLive] at h
    by_cases hturn : (room.currentPlayerTurn == some uid) = true
    · rw [if_pos hturn] at h
      exact absurd h (by simp)
    · rw [if_neg hturn] at h
      simp only [Except.ok.injEq] at h
      subst h
      intro p hp q hq hpu hqu
      have h1 := liveVotes_mem_key room.votes uid un qid now p hp hpu
      have h2 := liveVotes_mem_key room.votes uid un qid now q hq hqu
      rw [h1, h2]

/-- Witness for `submitVoteLive_single_prompt_per_user` at a concrete
vote. -/
theorem submitVoteLive_single_prompt_per_user_witness :
    ∃ u : VoteUpdate,
      submitVoteLive (some roomInactiveVoter) "B" "B" "q1" "t1" =
        Except.ok u ∧
      ∀ p ∈ u.room.votes, ∀ q ∈ u.room.votes,
        p.2.any (·.userId == "B") = true → q.2.any (·.userId == "B") = true →
        p.1 = q.1 := by
  refine ⟨_, rfl, ?_⟩
  exact submitVoteLive_single_prompt_per_user (some roomInactiveVoter)
    "B" "B" "q1" "t1" _ rfl

/-! ### Lemmas about the player-list helpers -/

/-- Mapping a function that fixes `userId` over a player list leaves the
id sequence unchanged. -/
theorem userIds_map_of_id_fixed (ps : List Player) (f : Player → Player)
    (hf : ∀ p, (f p).userId = p.userId) :
    userIds (ps.map f) = userIds ps := by
  unfold userIds
  rw [List.map_map]
  exact List.map_congr_left (fun p _ => hf p)

/-- Marking the leaver preserves the id sequence. -/
theorem userIds_markLeft (ps : List Player) (uid now : String) :
    userIds (markLeft ps uid now) = userIds ps := by
  apply userIds_map_of_id_fixed
  intro p
  by_cases h : (p.userId == uid) = true
  · simp [h]
  · simp [h]

/-- Moving the host flag preserves the id sequence. -/
theorem userIds_assignHostFlags (ps : List Player) (a b : String) :
    userIds (assignHostFlags ps a b) = userIds ps := by
  apply userIds_map_of_id_fixed
  intro p
  by_cases h1 : (p.userId == a) = true
  · simp [assignHostFlags, h1]
  · by_cases h2 : (p.userId == b) = true
    · simp [assignHostFlags, h1, h2]
    · simp [assignHostFlags, h1, h2]

/-- Reactivating an entry preserves the id sequence. -/
theorem userIds_reactivate (ps : List Player) (uid now : String) :
    userIds (reactivate ps uid now) = userIds ps := by
  apply userIds_map_of_id_fixed
  intro p
  by_cases h : (p.userId == uid) = true
  · simp [reactivate, h]
  · simp [reactivate, h]

/-- After `markLeft`, no ACTIVE entry carries the leaver's id. -/
theorem markLeft_active_ne (ps : List Player) (uid now : String) :
    ∀ p ∈ activeOf (markLeft ps uid now), (p.userId == uid) = false := by
  intro p hp
  simp only [activeOf, List.mem_filter, markLeft, List.mem_map] at hp
  obtain ⟨⟨q, hq, hfq⟩, hact⟩ := hp
  by_cases h : (q.userId == uid) = true
  · rw [if_pos h] at hfq
    subst hfq
    simp at hact
  · rw [if_neg h] at hfq
    subst hfq
    simp only [Bool.not_eq_true] at h
    exact h

/-- Every entry of `markLeft` carrying the leaver's id is inactive with
`leftAt` stamped. -/
theorem markLeft_marks (ps : List Player) (uid now : String) :
    ∀ p ∈ markLeft ps uid now, p.userId = uid →
      p.isActive = false ∧ p.leftAt = some now := by
  intro p hp hpu
  simp only [markLeft, List.mem_map] at hp
  obtain ⟨q, hq, hfq⟩ := hp
  by_cases h : (q.userId == uid) = true
  · rw [if_pos h] at hfq
    subst hfq
    exact ⟨rfl, rfl⟩
  · rw [if_neg h] at hfq
    subst hfq
    simp only [beq_iff_eq] at h
    exact absurd hpu h

/-- Entries of `assignHostFlags` keep their id, activity and `leftAt`,
gain the host flag when they are the new host, and lose it when they are
the leaver (and not the new host). -/
theorem assignHostFlags_spec (ps : List Player) (a b : String) :
    ∀ p ∈ assignHostFlags ps a b, ∃ q ∈ ps, p.userId = q.userId ∧
      p.isActive = q.isActive ∧ p.leftAt = q.leftAt ∧
      (p.userId = a → p.isHost = true) ∧
      (p.userId ≠ a → p.userId = b → p.isHost = false) := by
  intro p hp
  simp only [assignHostFlags, List.mem_map] at hp
  obtain ⟨q, hq, hfq⟩ := hp
  by_cases h1 : (q.userId == a) = true
  · rw [if_pos h1] at hfq
    subst hfq
    simp only [beq_iff_eq] at h1
    exact ⟨q, hq, rfl, rfl, rfl, fun _ => rfl, fun hne _ => absurd h1 hne⟩
  · rw [if_neg h1] at hfq
    simp only [beq_iff_eq] at h1
    by_cases h2 : (q.userId == b) = true
    · rw [if_pos h2] at hfq
      subst hfq
      exact ⟨q, hq, rfl, rfl, rfl, fun ha => absurd ha h1, fun _ _ => rfl⟩
    · rw [if_neg h2] at hfq
      subst hfq
      simp only [beq_iff_eq] at h2
      exact ⟨q, hq, rfl, rfl, rfl, fun ha => absurd ha h1,
             fun _ hb => absurd hb h2⟩

/-- A `find?` whose predicate holds on every element returns the head. -/
theorem find?_eq_head?_of_all (l : List Player) (pred : Player → Bool)
    (hall : ∀ x ∈ l, pred x = true) : l.find? pred = l.head? := by
  cases l with
  | nil => rfl
  | cons a t =>
    rw [List.find?_cons_of_pos _ (hall a (List.mem_cons_self a t))]
    rfl

/-- C6: `leaveRoom` marks the leaver's entry inactive and stamps `leftAt`
without removing any entry; when the leaving host still has active
co-players the host role and `isHost` flag move to the first active player
in join order and the status is untouched; when no active player remains
the room becomes terminated. -/
theorem leaveRoom_marks_reassigns_terminates {V : Type}
    (room : Room V) (uid now : String)
    (_hmem : uid ∈ userIds room.players) :
    ∃ r : Room V, leaveRoom (some room) uid now = Except.ok r ∧
      userIds r.players = userIds room.players ∧
      (∀ p ∈ r.players, p.userId = uid →
        p.isActive = false ∧ p.leftAt = some now) ∧
      (room.hostId = uid → activeOf (markLeft room.players uid now) ≠ [] →
        ∃ newHost,
          (activeOf (markLeft room.players uid now)).head? = some newHost ∧
          r.hostId = newHost.userId ∧
          (∀ p ∈ r.players, p.userId = newHost.userId → p.isHost = true) ∧
          (∀ p ∈ r.players, p.userId = uid → p.isHost = false) ∧
          r.status = room.status) ∧
      (activeOf (markLeft room.players uid now) = [] →
        r.status = RoomStatus.terminated) := by
  rcases hl : activeOf (markLeft room.players uid now) with _ | ⟨h0, t⟩
  · refine ⟨{ room with
        players := markLeft room.players uid now
        updatedAt := now
        status := RoomStatus.terminated }, ?_, ?_, ?_, ?_, ?_⟩
    · simp only [leaveRoom]
      rw [hl]
      simp
    · dsimp only
      rw [userIds_markLeft]
    · dsimp only
      exact markLeft_marks room.players uid now
    · intro _ hne
      exact absurd rfl hne
    · intro _
      rfl
  · by_cases hhost : room.hostId = uid
    · have hall : ∀ x ∈ activeOf (markLeft room.players uid now),
          (!(x.userId == uid)) = true := by
        intro x hx
        simp [markLeft_active_ne room.players uid now x hx]
      have hfind : (activeOf (markLeft room.players uid now)).find?
          (fun p => !(p.userId == uid)) = some h0 := by
        rw [find?_eq_head?_of_all _ _ hall, hl]
        rfl
      have hh0mem : h0 ∈ activeOf (markLeft room.players uid now) := by
        rw [hl]
        exact List.mem_cons_self h0 t
      have hh0 : h0.userId ≠ uid := by
        have := markLeft_active_ne room.players uid now h0 hh0mem
        simpa using this
      refine ⟨{ room with
          players := assignHostFlags (markLeft room.players uid now)
                       h0.userId uid
          hostId := h0.userId
          updatedAt := now }, ?_, ?_, ?_, ?_, ?_⟩
      · simp only [leaveRoom]
        rw [hfind, hl]
        simp [hhost]
      · dsimp only
        rw [userIds_assignHostFlags, userIds_markLeft]
      · dsimp only
        intro p hp hpu
        obtain ⟨q, hq, hid, hact, hleft, _, _⟩ :=
          assignHostFlags_spec _ _ _ p hp
        have hm := markLeft_marks room.players uid now q hq (hid ▸ hpu)
        exact ⟨hact.trans hm.1, hleft.trans hm.2⟩
      · intro _ _
        refine ⟨h0, rfl, rfl, ?_, ?_, rfl⟩
        · dsimp only
          intro p hp hpu
          obtain ⟨q, hq, hid, _, _, hflag, _⟩ :=
            assignHostFlags_spec _ _ _ p hp
          exact hflag hpu
        · dsimp only
          intro p hp hpu
          obtain ⟨q, hq, hid, _, _, _, hnot⟩ :=
            assignHostFlags_spec _ _ _ p hp
          exact hnot (fun he => hh0 (he.symm.trans hpu)) hpu
      · intro hterm
        exact absurd hterm (by simp)
    · have hhostb : (room.hostId == uid) = false := by
        simpa using hhost
      refine ⟨{ room with
          players := markLeft room.players uid now
          updatedAt := now }, ?_, ?_, ?_, ?_, ?_⟩
      · simp only [leaveRoom]
        rw [hl]
        simp [hhostb]
      · dsimp only
        rw [userIds_markLeft]
      · dsimp only
        exact markLeft_marks room.players uid now
      · intro hh
        exact absurd hh hhost
      · intro hterm
        exact absurd hterm (by simp)

/-- Witness for `leaveRoom_marks_reassigns_terminates`: the host `H`
leaves a room with one other active player `P`. -/
theorem leaveRoom_marks_reassigns_terminates_witness :
    "H" ∈ userIds (roomHostLeave.players) ∧
    ∃ r : Room String,
      leaveRoom (some roomHostLeave) "H" "t1" = Except.ok r ∧
      userIds r.players = userIds roomHostLeave.players ∧
      (∀ p ∈ r.players, p.userId = "H" →
        p.isActive = false ∧ p.leftAt = some "t1") ∧
      (roomHostLeave.hostId = "H" →
        activeOf (markLeft roomHostLeave.players "H" "t1") ≠ [] →
        ∃ newHost,
          (activeOf (markLeft roomHostLeave.players "H" "t1")).head? =
            some newHost ∧
          r.hostId = newHost.userId ∧
          (∀ p ∈ r.players, p.userId = newHost.userId → p.isHost = true) ∧
          (∀ p ∈ r.players, p.userId = "H" → p.isHost = false) ∧
          r.status = roomHostLeave.status) ∧
      (activeOf (markLeft roomHostLeave.players "H" "t1") = [] →
        r.status = RoomStatus.terminated) := by
  constructor
  · decide
  · exact leaveRoom_marks_reassigns_terminates roomHostLeave "H" "t1"
      (by decide)

/-- `leaveRoom` never changes the id sequence of the player list. -/
theorem leaveRoom_userIds {V : Type} (room : Room V) (uid now : String)
    (r : Room V) (h : leaveRoom (some room) uid now = Except.ok r) :
    userIds r.players = userIds room.players := by
  simp only [leaveRoom, Except.ok.injEq] at h
  subst h
  repeat' split
  all_goals simp [userIds_assignHostFlags, userIds_markLeft]

/-- A successful `joinRoom` only keeps, edits in place or appends player
entries: every pre-join id is still present. -/
theorem joinRoom_userIds_sub {V : Type} (room : Room V) (pd : PlayerData)
    (now : String) (jr : JoinResult V)
    (h : joinRoom (some room) pd now = Except.ok jr) :
    ∀ u ∈ userIds room.players, u ∈ userIds jr.room.players := by
  simp only [joinRoom] at h
  by_cases hcap : room.maxPlayers ≤ (activeOf room.players).length
  · rw [if_pos hcap] at h
    exact absurd h (by simp)
  · rw [if_neg hcap] at h
    cases hfind : room.players.find? (fun p => p.userId == pd.userId) with
    | some p =>
      rw [hfind] at h
      dsimp only at h
      by_cases hpa : p.isActive = true
      · rw [if_pos hpa] at h
        simp only [Except.ok.injEq] at h
        subst h
        intro u hu
        exact hu
      · rw [if_neg hpa] at h
        simp only [Except.ok.injEq] at h
        subst h
        intro u hu
        dsimp only
        rw [userIds_reactivate]
        exact hu
    | none =>
      rw [hfind] at h
      dsimp only at h
      simp only [Except.ok.injEq] at h
      subst h
      intro u hu
      dsimp only
      unfold userIds
      rw [List.map_append]
      exact List.mem_append_left _ hu

/-- One membership operation never loses a player id. -/
theorem applyOp_userIds_sub {V : Type} (room : Room V) (op : RoomOp) :
    ∀ u ∈ userIds room.players, u ∈ userIds (applyOp room op).players := by
  cases op with
  | join pd now =>
    dsimp only [applyOp]
    cases hj : joinRoom (some room) pd now with
    | ok jr => exact joinRoom_userIds_sub room pd now jr hj
    | error e =>
      intro u hu
      exact hu
  | leave uid now =>
    dsimp only [applyOp]
    cases hleave : leaveRoom (some room) uid now with
    | ok r =>
      intro u hu
      rw [leaveRoom_userIds room uid now r hleave]
      exact hu
    | error e =>
      intro u hu
      exact hu

/-- C7: the player list is append-only: across any sequence of
`joinRoom`/`leaveRoom` operations the set of user ids present in
`players` never shrinks. -/
theorem players_append_only {V : Type} (room : Room V) (ops : List RoomOp) :
    userIds room.players ⊆ userIds (applyOps room ops).players := by
  induction ops generalizing room with
  | nil =>
    intro u hu
    exact hu
  | cons op ops ih =>
    intro u hu
    exact ih (applyOp room op) (applyOp_userIds_sub room op u hu)

/-- Witness instantiating `players_append_only` on a concrete
join-then-leave history. -/
theorem players_append_only_witness :
    "H" ∈ userIds (applyOps (baseRoom String)
      [RoomOp.join ⟨"B", "B", ""⟩ "t1", RoomOp.leave "H" "t2"]).players := by
  exact players_append_only (baseRoom String)
    [RoomOp.join ⟨"B", "B", ""⟩ "t1", RoomOp.leave "H" "t2"] (by decide)

/-- Appending an active entry grows the active count by one. -/
theorem activeOf_append_active (ps : List Player) (p : Player)
    (hp : p.isActive = true) :
    (activeOf (ps ++ [p])).length = (activeOf ps).length + 1 := by
  simp [activeOf, List.filter_append, hp]

/-- C8 (amended): only the join path that appends a new player computes
`shouldAutoStart`; on that path the flag is present and is true exactly
when the active-player count after the join equals `maxPlayers` and the
status is still pending. -/
theorem joinRoom_new_player_autostart {V : Type}
    (room : Room V) (pd : PlayerData) (now : String) (jr : JoinResult V)
    (hnew : room.players.find? (fun p => p.userId == pd.userId) = none)
    (h : joinRoom (some room) pd now = Except.ok jr) :
    ∃ b, jr.shouldAutoStart = some b ∧
      (b = true ↔ ((activeOf jr.room.players).length = jr.room.maxPlayers ∧
                   jr.room.status = RoomStatus.pending)) := by
  simp only [joinRoom] at h
  by_cases hcap : room.maxPlayers ≤ (activeOf room.players).length
  · rw [if_pos hcap] at h
    exact absurd h (by simp)
  · rw [if_neg hcap] at h
    rw [hnew] at h
    dsimp only at h
    simp only [Except.ok.injEq] at h
    subst h
    refine ⟨_, rfl, ?_⟩
    dsimp only
    have hlen := activeOf_append_active room.players
      { userId := pd.userId, username := pd.username, avatar := pd.avatar,
        isHost := false, isActive := true, joinedAt := now } rfl
    simp only [Bool.and_eq_true, decide_eq_true_eq, beq_iff_eq]
    constructor
    · intro hb
      refine ⟨?_, hb.2⟩
      omega
    · intro hb
      refine ⟨?_, hb.2⟩
      omega

/-- Witness for `joinRoom_new_player_autostart`: a new second player joins
the pending 2-player room, so the returned flag is present and true. -/
theorem joinRoom_new_player_autostart_witness :
    ∃ jr : JoinResult String,
      joinRoom (some { baseRoom String with maxPlayers := 2 })
        ⟨"B", "B", ""⟩ "t1" = Except.ok jr ∧
      ∃ b, jr.shouldAutoStart = some b ∧
        (b = true ↔
          ((activeOf jr.room.players).length = jr.room.maxPlayers ∧
           jr.room.status = RoomStatus.pending)) := by
  refine ⟨_, rfl, ?_⟩
  exact joinRoom_new_player_autostart { baseRoom String with maxPlayers := 2 }
    ⟨"B", "B", ""⟩ "t1" _ (by decide) rfl

/-- C9: a vote by the turn-holder is rejected with no vote recorded on
both submission paths: the HTTP route answers 400 (`Current player cannot
vote`) when the caller is a player and 403 otherwise, and the live
handler emits the turn-holder error. -/
theorem submitVote_rejects_turn_holder
    (roomS : Room String) (roomL : Room Voter)
    (uid un qidS qidL now : String)
    (hS : roomS.currentPlayerTurn = some uid)
    (hL : roomL.currentPlayerTurn = some uid) :
    (roomS.players.any (·.userId == uid) = true →
      submitVoteRoute (some roomS) uid qidS now =
        Except.error (HttpError.badRequest "Current player cannot vote")) ∧
    (roomS.players.any (·.userId == uid) = false →
      submitVoteRoute (some roomS) uid qidS now =
        Except.error
          (HttpError.forbidden "You are not a player in this room")) ∧
    submitVoteLive (some roomL) uid un qidL now =
      Except.error "You cannot vote - it is your turn to answer" := by
  refine ⟨?_, ?_, ?_⟩
  · intro hmem
    simp [submitVoteRoute, hmem, hS]
  · intro hmem
    simp [submitVoteRoute, hmem]
  · simp [submitVoteLive, hL]

/-- Witness for `submitVote_rejects_turn_holder`: turn-holder `T` tries to
vote on both paths. -/
theorem submitVote_rejects_turn_holder_witness :
    (roomTwoPrompts.players.any (·.userId == "T") = true →
      submitVoteRoute (some roomTwoPrompts) "T" "q2" "t1" =
        Except.error (HttpError.badRequest "Current player cannot vote")) ∧
    (roomTwoPrompts.players.any (·.userId == "T") = false →
      submitVoteRoute (some roomTwoPrompts) "T" "q2" "t1" =
        Except.error
          (HttpError.forbidden "You are not a player in this room")) ∧
    submitVoteLive (some roomInactiveVoter) "T" "T" "q1" "t1" =
      Except.error "You cannot vote - it is your turn to answer" := by
  exact submitVote_rejects_turn_holder roomTwoPrompts roomInactiveVoter
    "T" "T" "q2" "q1" "t1" rfl rfl

/-- C10: a room whose TOTAL player-list length has reached `maxPlayers`
while its ACTIVE count is still below it is declared full by
`validateRoomCode` (which measures `players.length`) yet is still
joinable through `joinRoom` (which measures the active count). -/
theorem validateRoomCode_full_but_joinable {V : Type}
    (room : Room V) (pd : PlayerData) (now : String)
    (hstatus : room.status = RoomStatus.pending ∨
               room.status = RoomStatus.active)
    (hfull : room.maxPlayers ≤ room.players.length)
    (hactive : (activeOf room.players).length < room.maxPlayers) :
    (validateRoomCode (some room)).valid = false ∧
    (validateRoomCode (some room)).message = some "Room is full" ∧
    ∃ jr : JoinResult V, joinRoom (some room) pd now = Except.ok jr := by
  have hb : (room.status == RoomStatus.pending ||
             room.status == RoomStatus.active) = true := by
    rcases hstatus with h | h <;> simp [h]
  refine ⟨?_, ?_, ?_⟩
  · simp [validateRoomCode, hb, hfull]
  · simp [validateRoomCode, hb, hfull]
  · simp only [joinRoom]
    rw [if_neg (not_le.mpr hactive)]
    cases hfind : room.players.find? (fun p => p.userId == pd.userId) with
    | some p =>
      dsimp only
      by_cases hpa : p.isActive = true
      · rw [if_pos hpa]
        exact ⟨_, rfl⟩
      · rw [if_neg hpa]
        exact ⟨_, rfl⟩
    | none =>
      exact ⟨_, rfl⟩

/-- Witness for `validateRoomCode_full_but_joinable`: the pending
2-player room whose second entry is inactive. -/
theorem validateRoomCode_full_but_joinable_witness :
    (validateRoomCode (some (roomRejoinPending String))).valid = false ∧
    (validateRoomCode (some (roomRejoinPending String))).message =
      some "Room is full" ∧
    ∃ jr : JoinResult String,
      joinRoom (some (roomRejoinPending String)) ⟨"B", "B", ""⟩ "t1" =
        Except.ok jr := by
  exact validateRoomCode_full_but_joinable (roomRejoinPending String)
    ⟨"B", "B", ""⟩ "t1" (Or.inl rfl) (by decide) (by decide)

/-- Prompt selection always yields at most 3 prompts. -/
theorem selectQuestions_length_le (gid : Option String)
    (game : Option (List GameQuestion)) (shuffled : List GameQuestion)
    (uuid : Nat → String) :
    (selectQuestions gid game shuffled uuid).length ≤ 3 := by
  cases gid with
  | none => simp [selectQuestions]
  | some g =>
    cases game with
    | none => simp [selectQuestions]
    | some qs =>
      simp only [selectQuestions, List.length_mapIdx, List.length_take]
      omega

/-- C4: `rotatePlayerTurn` on a pre-rotation round of at least 10
completes the game and reports `gameEnded` with the turn and offered
prompts untouched; otherwise it increments the round by exactly one,
clears votes and answers, draws at most 3 fresh prompts and advances the
turn to the next active player in join order (wrapping to the first
active player, restarting at the first active player when the holder is
no longer active). -/
theorem rotatePlayerTurn_spec {V : Type} (room : Room V)
    (game : Option (List GameQuestion)) (shuffled : List GameQuestion)
    (uuid : Nat → String) (now : String)
    (hplayers : room.players ≠ [])
    (hround : 1 ≤ room.round) :
    (10 ≤ room.round →
      ∃ r : RotateResult V,
        rotatePlayerTurn (some room) game shuffled uuid now = Except.ok r ∧
        r.gameEnded = true ∧ r.room.status = RoomStatus.completed ∧
        r.room.currentPlayerTurn = room.currentPlayerTurn ∧
        r.room.questions = room.questions ∧
        r.room.round = room.round ∧
        r.room.players = room.players) ∧
    (room.round < 10 → activeOf room.players ≠ [] →
      ∃ r : RotateResult V,
        rotatePlayerTurn (some room) game shuffled uuid now = Except.ok r ∧
        r.gameEnded = false ∧
        r.room.round = room.round + 1 ∧
        r.room.votes = [] ∧ r.room.answers = [] ∧
        r.room.questions.length ≤ 3 ∧
        r.room.currentPlayerTurn = specNextTurn room) := by
  have hne : room.players.isEmpty = false := by
    cases hp : room.players with
    | nil => exact absurd hp hplayers
    | cons a t => rfl
  have h0 : (room.round == 0) = false := by
    simp only [beq_eq_false_iff_ne, ne_eq]
    omega
  have hcr : (if room.round == 0 then 1 else room.round) = room.round := by
    rw [h0]
    simp
  constructor
  · intro h10
    simp only [rotatePlayerTurn, hne, Bool.false_eq_true, if_false, hcr]
    rw [if_pos h10]
    exact ⟨_, rfl, rfl, rfl, rfl, rfl, rfl, rfl⟩
  · intro hlt hact
    have hane : (activeOf room.players).isEmpty = false := by
      cases hp : activeOf room.players with
      | nil => exact absurd hp hact
      | cons a t => rfl
    simp only [rotatePlayerTurn, hne, Bool.false_eq_true, if_false, hcr,
               hane]
    rw [if_neg (not_le.mpr hlt)]
    cases hfi : (activeOf room.players).findIdx?
        (fun p => some p.userId == room.currentPlayerTurn) with
    | some i =>
      refine ⟨_, rfl, rfl, rfl, rfl, rfl,
        selectQuestions_length_le room.gameId game shuffled uuid, ?_⟩
      simp only [specNextTurn, hfi]
      have hidx : (if i < (activeOf room.players).length - 1 then i + 1
                   else 0) =
          (if i + 1 < (activeOf room.players).length then i + 1 else 0) := by
        split_ifs <;> omega
      rw [hidx]
    | none =>
      refine ⟨_, rfl, rfl, rfl, rfl, rfl,
        selectQuestions_length_le room.gameId game shuffled uuid, ?_⟩
      simp only [specNextTurn, hfi]

/-- Witness for `rotatePlayerTurn_spec`: one non-terminal rotation on a
two-player room in round 1. -/
theorem rotatePlayerTurn_spec_witness :
    roomHostLeave.players ≠ [] ∧ 1 ≤ roomHostLeave.round ∧
    ((10 ≤ roomHostLeave.round →
      ∃ r : RotateResult String,
        rotatePlayerTurn (some roomHostLeave) none [] (fun _ => "u") "t1" =
          Except.ok r ∧
        r.gameEnded = true ∧ r.room.status = RoomStatus.completed ∧
        r.room.currentPlayerTurn = roomHostLeave.currentPlayerTurn ∧
        r.room.questions = roomHostLeave.questions ∧
        r.room.round = roomHostLeave.round ∧
        r.room.players = roomHostLeave.players) ∧
    (roomHostLeave.round < 10 → activeOf roomHostLeave.players ≠ [] →
      ∃ r : RotateResult String,
        rotatePlayerTurn (some roomHostLeave) none [] (fun _ => "u") "t1" =
          Except.ok r ∧
        r.gameEnded = false ∧
        r.room.round = roomHostLeave.round + 1 ∧
        r.room.votes = [] ∧ r.room.answers = [] ∧
        r.room.questions.length ≤ 3 ∧
        r.room.currentPlayerTurn = specNextTurn roomHostLeave)) := by
  refine ⟨by decide, by decide, ?_⟩
  exact rotatePlayerTurn_spec roomHostLeave none [] (fun _ => "u") "t1"
    (by decide) (by decide)

/-- C5: `startRoom` fails below 2 active players; on success it activates
the room at round 1 with cleared votes/answers, offers at most 3 prompts
drawn without replacement from the game's prompt list, and hands the turn
to an active player of the room. -/
theorem startRoom_spec {V : Type} (room : Room V)
    (gameQs shuffled : List GameQuestion)
    (uuid : Nat → String) (randomIndex : Nat) (now : String)
    (hperm : shuffled.Perm gameQs)
    (hidx : randomIndex < (activeOf room.players).length) :
    ((activeOf room.players).length < 2 →
      startRoom (some room) (some gameQs) shuffled uuid randomIndex now =
        Except.error "Need at least 2 active players to start") ∧
    (2 ≤ (activeOf room.players).length →
      ∃ r : Room V,
        startRoom (some room) (some gameQs) shuffled uuid randomIndex now =
          Except.ok r ∧
        r.status = RoomStatus.active ∧ r.round = 1 ∧
        r.votes = [] ∧ r.answers = [] ∧
        r.questions.length ≤ 3 ∧
        (∃ sel : List GameQuestion, sel.Sublist shuffled ∧
          (∀ q ∈ sel, q ∈ gameQs) ∧ (gameQs.Nodup → sel.Nodup) ∧
          r.questions = sel.mapIdx (fun i q => mapQuestion uuid i q)) ∧
        ∃ uid ∈ userIds (activeOf room.players),
          r.currentPlayerTurn = some uid) := by
  constructor
  · intro hlt
    simp only [startRoom]
    rw [if_pos hlt]
  · intro hge
    simp only [startRoom]
    rw [if_neg (not_lt.mpr hge)]
    refine ⟨_, rfl, rfl, rfl, rfl, rfl, ?_, ?_, ?_⟩
    · exact selectQuestions_length_le room.gameId (some gameQs) shuffled uuid
    · cases hid : room.gameId with
      | none =>
        exact ⟨[], List.nil_sublist _, by simp, fun _ => List.nodup_nil,
               by simp [selectQuestions, hid]⟩
      | some g =>
        refine ⟨shuffled.take 3, List.take_sublist 3 shuffled, ?_, ?_, ?_⟩
        · intro q hq
          exact (hperm.mem_iff).mp (List.mem_of_mem_take hq)
        · intro hnd
          exact List.Nodup.sublist (List.take_sublist 3 shuffled)
            ((hperm.nodup_iff).mpr hnd)
        · simp [selectQuestions, hid]
    · refine ⟨((activeOf room.players).getD randomIndex default).userId,
              ?_, rfl⟩
      unfold userIds
      apply List.mem_map_of_mem
      rw [List.getD_eq_getElem _ _ hidx]
      exact List.getElem_mem _

/-- Witness for `startRoom_spec`: the two-player room starts with an empty
catalog list. -/
theorem startRoom_spec_witness :
    ([] : List GameQuestion).Perm [] ∧
    0 < (activeOf roomHostLeave.players).length ∧
    (((activeOf roomHostLeave.players).length < 2 →
      startRoom (some roomHostLeave) (some []) [] (fun _ => "u") 0 "t1" =
        Except.error "Need at least 2 active players to start") ∧
    (2 ≤ (activeOf roomHostLeave.players).length →
      ∃ r : Room String,
        startRoom (some roomHostLeave) (some []) [] (fun _ => "u") 0 "t1" =
          Except.ok r ∧
        r.status = RoomStatus.active ∧ r.round = 1 ∧
        r.votes = [] ∧ r.answers = [] ∧
        r.questions.length ≤ 3 ∧
        (∃ sel : List GameQuestion, sel.Sublist [] ∧
          (∀ q ∈ sel, q ∈ ([] : List GameQuestion)) ∧
          (([] : List GameQuestion).Nodup → sel.Nodup) ∧
          r.questions = sel.mapIdx (fun i q => mapQuestion (fun _ => "u") i q)) ∧
        ∃ uid ∈ userIds (activeOf roomHostLeave.players),
          r.currentPlayerTurn = some uid)) := by
  refine ⟨List.Perm.refl [], by decide, ?_⟩
  exact startRoom_spec roomHostLeave [] [] (fun _ => "u") 0 "t1"
    (List.Perm.refl []) (by decide)

/-- Cons step of `maxCount`. -/
theorem maxCount_cons (p : String × Nat) (t : List (String × Nat)) :
    maxCount (p :: t) = max p.2 (maxCount t) := rfl

/-- Every count in the list is bounded by `maxCount`. -/
theorem le_maxCount_of_mem (cs : List (String × Nat)) (c : String × Nat)
    (hc : c ∈ cs) : c.2 ≤ maxCount cs := by
  induction cs with
  | nil => cases hc
  | cons p t ih =>
    rcases List.mem_cons.mp hc with rfl | hc'
    · rw [maxCount_cons]
      exact le_max_left _ _
    · rw [maxCount_cons]
      exact le_trans (ih hc') (le_max_right _ _)

/-- The strict-greater accumulator scan ignores a list whose maximum does
not beat the accumulator. -/
theorem winStep_foldl_of_le (cs : List (String × Nat))
    (acc : Option String × Nat) (h : maxCount cs ≤ acc.2) :
    cs.foldl winStep acc = acc := by
  induction cs generalizing acc with
  | nil => rfl
  | cons p t ih =>
    rw [maxCount_cons] at h
    have hp : p.2 ≤ acc.2 := le_trans (le_max_left _ _) h
    simp only [List.foldl_cons, winStep, if_neg (not_lt.mpr hp)]
    exact ih acc (le_trans (le_max_right _ _) h)

/-- The strict-greater accumulator scan over a list whose maximum beats
the accumulator lands on the first entry attaining the maximum. -/
theorem winStep_foldl_of_lt (cs : List (String × Nat))
    (acc : Option String × Nat) (h : acc.2 < maxCount cs) :
    ∃ w, cs.find? (fun q => maxCount cs ≤ q.2) = some w ∧
      cs.foldl winStep acc = (some w.1, w.2) := by
  induction cs generalizing acc with
  | nil =>
    exfalso
    simp [maxCount] at h
  | cons p t ih =>
    rw [maxCount_cons] at h
    by_cases hp : acc.2 < p.2
    · simp only [List.foldl_cons, winStep, if_pos hp]
      by_cases hm : maxCount t ≤ p.2
      · have hmax : max p.2 (maxCount t) = p.2 := max_eq_left hm
        refine ⟨p, ?_, ?_⟩
        · rw [List.find?_cons_of_pos]
          simp only [maxCount_cons, hmax, decide_eq_true_eq]
          exact le_refl _
        · exact winStep_foldl_of_le t _ hm
      · push_neg at hm
        have hmax : max p.2 (maxCount t) = maxCount t :=
          max_eq_right (le_of_lt hm)
        obtain ⟨w, hfw, hfold⟩ := ih (some p.1, p.2) hm
        refine ⟨w, ?_, hfold⟩
        rw [List.find?_cons_of_neg]
        · simp only [maxCount_cons, hmax]
          exact hfw
        · simp only [maxCount_cons, hmax, decide_eq_true_eq]
          omega
    · push_neg at hp
      have hmlt : acc.2 < maxCount t := by
        rcases lt_max_iff.mp h with h' | h'
        · exact absurd h' (not_lt.mpr hp)
        · exact h'
      have hmax : max p.2 (maxCount t) = maxCount t :=
        max_eq_right (le_trans hp (le_of_lt hmlt))
      simp only [List.foldl_cons, winStep, if_neg (not_lt.mpr hp)]
      obtain ⟨w, hfw, hfold⟩ := ih acc hmlt
      refine ⟨w, ?_, hfold⟩
      rw [List.find?_cons_of_neg]
      · simp only [maxCount_cons, hmax]
        exact hfw
      · simp only [maxCount_cons, hmax, decide_eq_true_eq]
        omega

/-- The vote rewrite of the live handler always leaves at least one vote
under the prompt just voted for. -/
theorem liveVotes_has_vote (votes : List (String × List Voter))
    (uid un qid now : String) :
    ∃ e ∈ liveVotes votes uid un qid now, e.1 = qid ∧ 1 ≤ e.2.length := by
  unfold liveVotes
  by_cases hany : (votes.any (·.1 == qid)) = true
  · rw [if_pos hany]
    simp only [List.any_eq_true] at hany
    obtain ⟨p, hp, hpq⟩ := hany
    refine ⟨(p.1, (p.2.filter (fun v => !(v.userId == uid))) ++
              [(⟨uid, un, now⟩ : Voter)]), ?_, eq_of_beq hpq, by simp⟩
    simp only [List.mem_map]
    refine ⟨(p.1, p.2.filter (fun v => !(v.userId == uid))),
            ⟨p, hp, rfl⟩, ?_⟩
    simp [hpq]
  · rw [if_neg hany]
    refine ⟨(qid, [(⟨uid, un, now⟩ : Voter)]), ?_, rfl, by simp⟩
    simp only [List.mem_map]
    exact ⟨(qid, []), ⟨(qid, []), by simp, by simp⟩, by simp⟩

/-- C3 (amended): after a live vote, voting is reported complete exactly
when the total number of votes reaches the count of ALL players other
than the turn-holder (inactive players included), and on completion the
designated winner is the first-encountered prompt attaining the maximum
vote count. -/
theorem submitVoteLive_completion_and_winner
    (found : Option (Room Voter)) (uid un qid now : String) (u : VoteUpdate)
    (h : submitVoteLive found uid un qid now = Except.ok u) :
    u.voteCounts = u.room.votes.map (fun p => (p.1, p.2.length)) ∧
    (u.votingComplete = true ↔
      allNonTurnCount u.room ≤ totalVotesOf u.room.votes) ∧
    (u.votingComplete = true →
      ∃ w, firstMaxEntry u.voteCounts = some w ∧
        (w.1 = "" → u.winningQuestion = none) ∧
        (w.1 ≠ "" →
          u.winningQuestion =
            u.room.questions.find? (fun x => x.id == w.1))) := by
  match found with
  | none => simp [submitVoteLive] at h
  | some room =>
    rw [submitVoteLive] at h
    by_cases hturn : (room.currentPlayerTurn == some uid) = true
    · rw [if_pos hturn] at h
      exact absurd h (by simp)
    · rw [if_neg hturn] at h
      simp only [Except.ok.injEq] at h
      subst h
      obtain ⟨e, he, heq, hlen⟩ := liveVotes_has_vote room.votes uid un qid now
      have hcmem : (e.1, e.2.length) ∈
          (liveVotes room.votes uid un qid now).map
            (fun p => (p.1, p.2.length)) :=
        List.mem_map_of_mem _ he
      have hmax1 : 1 ≤ maxCount ((liveVotes room.votes uid un qid now).map
          (fun p => (p.1, p.2.length))) :=
        le_trans hlen (le_maxCount_of_mem _ _ hcmem)
      have hne : ((liveVotes room.votes uid un qid now).map
          (fun p => (p.1, p.2.length))).isEmpty = false := by
        cases hv : (liveVotes room.votes uid un qid now).map
            (fun p => (p.1, p.2.length)) with
        | nil =>
          rw [hv] at hcmem
          cases hcmem
        | cons a t => rfl
      refine ⟨rfl, ?_, ?_⟩
      · simp [allNonTurnCount, totalVotesOf]
      · intro hcomp
        obtain ⟨w, hfw, hfold⟩ :=
          winStep_foldl_of_lt ((liveVotes room.votes uid un qid now).map
            (fun p => (p.1, p.2.length))) (none, 0) (by omega)
        dsimp only at hcomp
        refine ⟨w, hfw, ?_, ?_⟩
        · intro hw
          dsimp only
          rw [hcomp, hne]
          simp only [Bool.not_false, Bool.and_true, if_pos rfl]
          rw [hfold]
          simp [hw]
        · intro hw
          dsimp only
          rw [hcomp, hne]
          simp only [Bool.not_false, Bool.and_true, if_pos rfl]
          rw [hfold]
          have hwb : (w.1 == "") = false := by
            simpa using hw
          simp [hwb]

/-- Witness for `submitVoteLive_completion_and_winner`: the sole
non-turn-holder `B` votes, completing the vote. -/
theorem submitVoteLive_completion_and_winner_witness :
    ∃ u : VoteUpdate,
      submitVoteLive (some roomLiveVote) "B" "B" "q1" "t1" =
        Except.ok u ∧
      (u.voteCounts = u.room.votes.map (fun p => (p.1, p.2.length)) ∧
      (u.votingComplete = true ↔
        allNonTurnCount u.room ≤ totalVotesOf u.room.votes) ∧
      (u.votingComplete = true →
        ∃ w, firstMaxEntry u.voteCounts = some w ∧
          (w.1 = "" → u.winningQuestion = none) ∧
          (w.1 ≠ "" →
            u.winningQuestion =
              u.room.questions.find? (fun x => x.id == w.1)))) := by
  refine ⟨_, rfl, ?_⟩
  exact submitVoteLive_completion_and_winner (some roomLiveVote)
    "B" "B" "q1" "t1" _ rfl
